import Mathlib

/-!
Shallow embedding of the ledger operations of `src/accounts/views.py`
(django-bank-api): deposit, withdraw, transfer and transaction history.

Monetary amounts are modelled as `Int` (the store uses exact decimal
arithmetic; validated amounts are whole positive quantities, and all
arithmetic in the views is addition/subtraction, so `Int` is faithful).

`src/` holds only `accounts/views.py`; the models (`BankAccount`,
`Transaction`) and the request serializers live in files outside `src/`,
so the pieces of their behaviour the views rely on are modelled from the
spec and marked as such below.
-/

namespace BankApi

abbrev UserId := Nat

/-- A Django auth user: identity plus the unique username used to resolve
transfer recipients (`User.objects.get(username=...)`). -/
structure User where
  id : UserId
  username : String
deriving DecidableEq, Repr

/-- Modelled from the spec (the `Transaction` model of `accounts/models.py`
is not under `src/`): an immutable ledger record — owning account
reference, kind string, positive amount, free-text description and a
creation timestamp.  `created_at` is a logical clock: the store assigns
strictly increasing creation times to successively committed records. -/
structure Txn where
  account : UserId
  transaction_type : String
  amount : Int
  description : String
  created_at : Nat
deriving DecidableEq, Repr

/-- The ledger store: the users table, the bank-account rows (a user id is
a key of `balances` exactly when that user has a `BankAccount`), the
append-only transaction log, and the logical clock stamping new records. -/
structure BankState where
  users : List User
  balances : List (UserId × Int)
  txns : List Txn
  clock : Nat
deriving DecidableEq, Repr

/-- Structured failure outcomes of the view handlers.
`RelatedObjectDoesNotExist` is the unhandled Django exception escaping an
unguarded `.bank_account` access (it is not a structured response the
view builds). -/
inductive BankError where
  | ValidationError
  | InsufficientFunds
  | SelfTransfer
  | RecipientNotFound
  | RelatedObjectDoesNotExist
deriving DecidableEq, Repr

/-- Row lookup in the accounts table (user ids are unique keys). -/
def getBalance : List (UserId × Int) → UserId → Option Int
  | [], _ => none
  | (k, v) :: rest, uid => if k = uid then some v else getBalance rest uid

/-- `account.save()`: update the (unique) row keyed by `uid`. -/
def setBalance : List (UserId × Int) → UserId → Int → List (UserId × Int)
  | [], _, _ => []
  | (k, v) :: rest, uid, b =>
      if k = uid then (uid, b) :: rest else (k, v) :: setBalance rest uid b

/-- `User.objects.get(username=...)` (usernames are unique). -/
def findUserByName (s : BankState) (name : String) : Option User :=
  s.users.find? (fun u => u.username = name)

/-- Resolving `request.user` for a caller id. -/
def findUserById (s : BankState) (uid : UserId) : Option User :=
  s.users.find? (fun u => u.id = uid)

/-- `Transaction.objects.create(...)`: append one record to the log,
stamped with the current clock. -/
def appendTxn (s : BankState) (uid : UserId) (ty : String) (amount : Int)
    (descr : String) : BankState :=
  { s with txns := s.txns ++ [⟨uid, ty, amount, descr, s.clock⟩],
           clock := s.clock + 1 }

/-- Modelled from the spec (the `DepositSerializer` / `WithdrawSerializer`
/ `TransferSerializer` of `accounts/serializers.py` are not under `src/`):
`serializer.is_valid(raise_exception=True)` rejects a zero or negative
amount with a `ValidationError` before any store access. -/
def validAmount (amount : Int) : Bool := 0 < amount

/-- `DepositView.post` (views.py lines 49-68): validate, fetch the
caller's account, increase the balance, save, append one `DEPOSIT`
record, return the new balance. -/
def deposit (s : BankState) (uid : UserId) (amount : Int) :
    Except BankError (BankState × Int) :=
  if ¬ validAmount amount then .error .ValidationError
  else
    match getBalance s.balances uid with
    | none => .error .RelatedObjectDoesNotExist
    | some b =>
        let s1 := { s with balances := setBalance s.balances uid (b + amount) }
        let s2 := appendTxn s1 uid "DEPOSIT" amount "Deposit to account"
        .ok (s2, b + amount)

/-- `WithdrawView.post` (views.py lines 79-103): validate, fetch the
caller's account, refuse with insufficient funds when `balance < amount`,
otherwise decrease the balance, save, append one `WITHDRAWAL` record and
return the new balance. -/
def withdraw (s : BankState) (uid : UserId) (amount : Int) :
    Except BankError (BankState × Int) :=
  if ¬ validAmount amount then .error .ValidationError
  else
    match getBalance s.balances uid with
    | none => .error .RelatedObjectDoesNotExist
    | some b =>
        if b < amount then .error .InsufficientFunds
        else
          let s1 := { s with balances := setBalance s.balances uid (b - amount) }
          let s2 := appendTxn s1 uid "WITHDRAWAL" amount "Withdrawal from account"
          .ok (s2, b - amount)

/-- `TransferView.post` (views.py lines 114-169): validate; fetch the
sender's account; refuse a self transfer
(`sender_account.user.username == recipient_username`); resolve the
recipient user or fail with recipient-not-found; refuse when
`sender_account.balance < amount`; access `recipient.bank_account`
(unguarded — raises when the user has no account); then, inside
`transaction.atomic()`, debit the sender, credit the recipient (from the
balance read at the `recipient.bank_account` access) and append the
`TRANSFER_OUT` / `TRANSFER_IN` pair; return the sender's new balance. -/
def transfer (s : BankState) (uid : UserId) (rname : String) (amount : Int) :
    Except BankError (BankState × Int) :=
  if ¬ validAmount amount then .error .ValidationError
  else
    match findUserById s uid, getBalance s.balances uid with
    | some sender, some sb =>
        if sender.username = rname then .error .SelfTransfer
        else
          match findUserByName s rname with
          | none => .error .RecipientNotFound
          | some recipient =>
              if sb < amount then .error .InsufficientFunds
              else
                match getBalance s.balances recipient.id with
                | none => .error .RelatedObjectDoesNotExist
                | some rb =>
                    let s1 := { s with
                      balances := setBalance s.balances uid (sb - amount) }
                    let s2 := { s1 with
                      balances := setBalance s1.balances recipient.id (rb + amount) }
                    let s3 := appendTxn s2 uid "TRANSFER_OUT" amount
                      ("Transfer to " ++ rname)
                    let s4 := appendTxn s3 recipient.id "TRANSFER_IN" amount
                      ("Transfer from " ++ sender.username)
                    .ok (s4, sb - amount)
    | _, _ => .error .RelatedObjectDoesNotExist

/-- `TransactionHistoryView.get_queryset` (views.py lines 177-180):
the caller's transactions, ordered by `-created_at` (most recent
first). -/
def listTransactions (s : BankState) (uid : UserId) : List Txn :=
  (s.txns.filter (fun t => t.account = uid)).mergeSort
    (fun a b => b.created_at ≤ a.created_at)

/-- One ledger operation issued by some authenticated caller. -/
inductive Op where
  | deposit (uid : UserId) (amount : Int)
  | withdraw (uid : UserId) (amount : Int)
  | transfer (uid : UserId) (rname : String) (amount : Int)
deriving DecidableEq, Repr

/-- The amount carried by an operation. -/
def Op.amount : Op → Int
  | .deposit _ a => a
  | .withdraw _ a => a
  | .transfer _ _ a => a

/-- Run one operation against the store: a failing operation commits
nothing (every error response in the views is returned before any
mutation, and the transfer mutations sit in one `transaction.atomic()`
block). -/
def applyOp (s : BankState) : Op → BankState
  | .deposit uid a =>
      match deposit s uid a with
      | .ok (s', _) => s'
      | .error _ => s
  | .withdraw uid a =>
      match withdraw s uid a with
      | .ok (s', _) => s'
      | .error _ => s
  | .transfer uid rname a =>
      match transfer s uid rname a with
      | .ok (s', _) => s'
      | .error _ => s

/-- All bank-account rows hold a non-negative balance. -/
def AllNonneg (bs : List (UserId × Int)) : Prop := ∀ p ∈ bs, 0 ≤ p.2

/-!
Fine-grained model of `WithdrawView.post` for concurrent requests on one
account.  Unlike `TransferView.post`, the deposit and withdraw handlers
wrap nothing in `transaction.atomic()`: the fetch of the account row
(line 84), the balance check (line 86), the save of the decremented
balance (lines 91-92) and the record creation (lines 94-99) are separate
store interactions, so statements of two concurrent requests may
interleave between them.  Each request keeps the fetched balance in its
in-memory model instance (`account.balance`), and `account.save()`
writes that instance's value back.
-/

/-- One in-flight withdraw request: its amount, program counter
(0 = about to fetch the row, 1 = about to run the `balance < amount`
check, 2 = about to save the decremented balance, 3 = about to create
the `WITHDRAWAL` record, 4 = finished), the in-memory copy of the
balance, and whether it returned the insufficient-funds response. -/
structure WThread where
  amount : Int
  pc : Nat
  localBal : Int
  failed : Bool
deriving DecidableEq, Repr

/-- Shared store plus two concurrent withdraw requests on one account:
the stored balance and the amounts of the `WITHDRAWAL` records created
so far. -/
structure RaceState where
  balance : Int
  recorded : List Int
  t0 : WThread
  t1 : WThread
deriving DecidableEq, Repr

/-- Run the next statement of one withdraw request against the shared
store, following `WithdrawView.post` line by line. -/
def wStep (bal : Int) (recs : List Int) (t : WThread) :
    Int × List Int × WThread :=
  match t.pc with
  | 0 => (bal, recs, { t with localBal := bal, pc := 1 })
  | 1 =>
      if t.localBal < t.amount then (bal, recs, { t with failed := true, pc := 4 })
      else (bal, recs, { t with pc := 2 })
  | 2 => (t.localBal - t.amount, recs,
      { t with localBal := t.localBal - t.amount, pc := 3 })
  | 3 => (bal, recs ++ [t.amount], { t with pc := 4 })
  | _ => (bal, recs, t)

/-- Schedule one step: `false` advances request 0, `true` advances
request 1. -/
def raceStep (rs : RaceState) (i : Bool) : RaceState :=
  if i then
    let (b, r, t) := wStep rs.balance rs.recorded rs.t1
    { rs with balance := b, recorded := r, t1 := t }
  else
    let (b, r, t) := wStep rs.balance rs.recorded rs.t0
    { rs with balance := b, recorded := r, t0 := t }

/-- Run a whole interleaving of the two requests. -/
def runRace (rs : RaceState) (sched : List Bool) : RaceState :=
  sched.foldl raceStep rs

/-- Two fresh withdraw requests of amounts `a0` and `a1` against a
stored balance `b`. -/
def initRace (b a0 a1 : Int) : RaceState :=
  { balance := b, recorded := [],
    t0 := { amount := a0, pc := 0, localBal := 0, failed := false },
    t1 := { amount := a1, pc := 0, localBal := 0, failed := false } }

/-- The fully interleaved schedule: both requests fetch and pass the
balance check before either saves. -/
def racySched : List Bool :=
  [false, true, false, true, false, true, false, true]

/-- The serialized schedule: request 0 runs to completion before
request 1 starts — the behaviour one atomic unit per request would
force. -/
def serialSched : List Bool :=
  [false, false, false, false, true, true, true, true]

/-- A concrete store exercising the operations: alice (id 1) and bob
(id 2) have bank accounts with balances 100 and 50; carol (id 3) is a
registered user without a bank account. -/
def exState : BankState :=
  { users := [⟨1, "alice"⟩, ⟨2, "bob"⟩, ⟨3, "carol"⟩],
    balances := [(1, 100), (2, 50)],
    txns := [],
    clock := 0 }

/-- `exState` after alice deposits 50: its log holds one record. -/
def exStateH : BankState :=
  applyOp exState (.deposit 1 50)

/-! ### Store lemmas -/

theorem getBalance_nonneg {bs : List (UserId × Int)} {uid : UserId} {b : Int}
    (hA : AllNonneg bs) (h : getBalance bs uid = some b) : 0 ≤ b := by
  induction bs with
  | nil => simp [getBalance] at h
  | cons p rest ih =>
    obtain ⟨k, v⟩ := p
    simp only [getBalance] at h
    split at h
    · cases h
      exact hA (k, b) (by simp)
    · exact ih (fun q hq => hA q (List.mem_cons_of_mem _ hq)) h

theorem setBalance_allNonneg {bs : List (UserId × Int)} {uid : UserId} {b : Int}
    (hA : AllNonneg bs) (hb : 0 ≤ b) : AllNonneg (setBalance bs uid b) := by
  induction bs with
  | nil => intro p hp; simp [setBalance] at hp
  | cons q rest ih =>
    obtain ⟨k, v⟩ := q
    intro p hp
    simp only [setBalance] at hp
    split at hp
    · rcases List.mem_cons.mp hp with h | h
      · subst h; exact hb
      · exact hA p (List.mem_cons_of_mem _ h)
    · rcases List.mem_cons.mp hp with h | h
      · subst h; exact hA (k, v) (by simp)
      · exact ih (fun r hr => hA r (List.mem_cons_of_mem _ hr)) p h

theorem getBalance_setBalance_self {bs : List (UserId × Int)} {uid : UserId}
    {b : Int} (v : Int) (h : getBalance bs uid = some b) :
    getBalance (setBalance bs uid v) uid = some v := by
  induction bs with
  | nil => simp [getBalance] at h
  | cons q rest ih =>
    obtain ⟨k, w⟩ := q
    by_cases hk : k = uid
    · simp [getBalance, setBalance, hk]
    · simp only [getBalance, setBalance, if_neg hk] at h ⊢
      exact ih h

theorem getBalance_setBalance_ne {bs : List (UserId × Int)} {uid k : UserId}
    {v : Int} (hne : k ≠ uid) :
    getBalance (setBalance bs uid v) k = getBalance bs k := by
  induction bs with
  | nil => simp [setBalance]
  | cons q rest ih =>
    obtain ⟨k', w⟩ := q
    by_cases hk : k' = uid
    · subst hk
      have hk2 : k' ≠ k := fun h => hne h.symm
      simp [getBalance, setBalance, hk2]
    · simp only [getBalance, setBalance, if_neg hk]
      split
      · rfl
      · exact ih

/-! ### Inversion of the successful operations -/

theorem deposit_ok_inv {s : BankState} {uid : UserId} {a : Int}
    {s' : BankState} {r : Int} (h : deposit s uid a = .ok (s', r)) :
    ∃ b, 0 < a ∧ getBalance s.balances uid = some b ∧
      s' = appendTxn { s with balances := setBalance s.balances uid (b + a) }
             uid "DEPOSIT" a "Deposit to account" ∧
      r = b + a := by
  unfold deposit at h
  split at h
  · exact Except.noConfusion h
  · rename_i hv
    split at h
    · exact Except.noConfusion h
    · rename_i b hb
      rw [Except.ok.injEq, Prod.mk.injEq] at h
      exact ⟨b, by simpa [validAmount] using hv, hb, h.1.symm, h.2.symm⟩

theorem withdraw_ok_inv {s : BankState} {uid : UserId} {a : Int}
    {s' : BankState} {r : Int} (h : withdraw s uid a = .ok (s', r)) :
    ∃ b, 0 < a ∧ getBalance s.balances uid = some b ∧ ¬ b < a ∧
      s' = appendTxn { s with balances := setBalance s.balances uid (b - a) }
             uid "WITHDRAWAL" a "Withdrawal from account" ∧
      r = b - a := by
  unfold withdraw at h
  split at h
  · exact Except.noConfusion h
  · rename_i hv
    split at h
    · exact Except.noConfusion h
    · rename_i b hb
      split at h
      · exact Except.noConfusion h
      · rename_i hlt
        rw [Except.ok.injEq, Prod.mk.injEq] at h
        exact ⟨b, by simpa [validAmount] using hv, hb, hlt, h.1.symm, h.2.symm⟩

theorem transfer_ok_inv {s : BankState} {uid : UserId} {rname : String}
    {a : Int} {s' : BankState} {r : Int}
    (h : transfer s uid rname a = .ok (s', r)) :
    ∃ sender sb recipient rb,
      0 < a ∧ findUserById s uid = some sender ∧
      getBalance s.balances uid = some sb ∧
      sender.username ≠ rname ∧
      findUserByName s rname = some recipient ∧
      ¬ sb < a ∧
      getBalance s.balances recipient.id = some rb ∧
      s'.balances = setBalance (setBalance s.balances uid (sb - a))
        recipient.id (rb + a) ∧
      r = sb - a := by
  unfold transfer at h
  split at h
  · exact Except.noConfusion h
  · rename_i hv
    split at h
    case _ sender sb heq1 heq2 =>
      split at h
      · exact Except.noConfusion h
      · rename_i hself
        split at h
        · exact Except.noConfusion h
        · rename_i recipient hrec
          split at h
          · exact Except.noConfusion h
          · rename_i hfunds
            split at h
            · exact Except.noConfusion h
            · rename_i rb hrb
              rw [Except.ok.injEq, Prod.mk.injEq] at h
              refine ⟨sender, sb, recipient, rb,
                by simpa [validAmount] using hv, heq1, heq2, hself, hrec,
                hfunds, hrb, ?_, h.2.symm⟩
              rw [← h.1]
              simp [appendTxn]
    case _ h1 h2 => exact Except.noConfusion h

/-! ### Invariant preservation -/

theorem applyOp_allNonneg (s : BankState) (op : Op)
    (h : AllNonneg s.balances) : AllNonneg (applyOp s op).balances := by
  cases op with
  | deposit uid a =>
    cases hd : deposit s uid a with
    | error e => simpa [applyOp, hd] using h
    | ok p =>
      obtain ⟨s', r⟩ := p
      obtain ⟨b, ha, hb, hs', -⟩ := deposit_ok_inv hd
      subst hs'
      simp only [applyOp, hd, appendTxn]
      exact setBalance_allNonneg h
        (by have := getBalance_nonneg h hb; omega)
  | withdraw uid a =>
    cases hd : withdraw s uid a with
    | error e => simpa [applyOp, hd] using h
    | ok p =>
      obtain ⟨s', r⟩ := p
      obtain ⟨b, ha, hb, hlt, hs', -⟩ := withdraw_ok_inv hd
      subst hs'
      simp only [applyOp, hd, appendTxn]
      exact setBalance_allNonneg h (by omega)
  | transfer uid rname a =>
    cases hd : transfer s uid rname a with
    | error e => simpa [applyOp, hd] using h
    | ok p =>
      obtain ⟨s', r⟩ := p
      obtain ⟨sender, sb, recipient, rb, ha, -, hsb, -, -, hfunds, hrb, hbal, -⟩ :=
        transfer_ok_inv hd
      have h1 : AllNonneg (setBalance s.balances uid (sb - a)) :=
        setBalance_allNonneg h (by omega)
      have h2 : AllNonneg (setBalance (setBalance s.balances uid (sb - a))
          recipient.id (rb + a)) :=
        setBalance_allNonneg h1 (by have := getBalance_nonneg h hrb; omega)
      simpa [applyOp, hd, hbal] using h2

/-! ### The claims -/

/-- Claim C1: starting from a store in which every account balance is
non-negative, any sequence of deposit, withdraw and transfer operations
whose amounts are all positive leaves every account balance
non-negative after each operation completes. -/
theorem C1_nonneg_invariant (s : BankState) (ops : List Op)
    (h0 : AllNonneg s.balances) (hpos : ∀ op ∈ ops, 0 < op.amount) :
    AllNonneg ((ops.foldl applyOp s).balances) := by
  induction ops generalizing s with
  | nil => simpa using h0
  | cons op rest ih =>
    simp only [List.foldl_cons]
    exact ih (applyOp s op) (applyOp_allNonneg s op h0)
      (fun o ho => hpos o (by simp [ho]))

theorem C1_nonneg_invariant_witness :
    AllNonneg (([Op.deposit 1 50, Op.withdraw 1 30,
      Op.transfer 1 "bob" 40].foldl applyOp exState).balances) :=
  C1_nonneg_invariant exState _ (by unfold AllNonneg; decide) (by decide)

/-- Claim C2: a withdraw of a positive amount `a` against a balance `b`
returns the insufficient-funds error and commits nothing when `b < a`;
otherwise it returns the new balance `b - a`, the stored balance becomes
`b - a`, and exactly one `WITHDRAWAL` record of amount `a` is appended
to the log. -/
theorem C2_withdraw_correct (s : BankState) (uid : UserId) (a b : Int)
    (ha : 0 < a) (hb : getBalance s.balances uid = some b) :
    (b < a → withdraw s uid a = .error .InsufficientFunds ∧
      applyOp s (.withdraw uid a) = s) ∧
    (¬ b < a → ∃ s', withdraw s uid a = .ok (s', b - a) ∧
      getBalance s'.balances uid = some (b - a) ∧
      s'.txns = s.txns ++
        [⟨uid, "WITHDRAWAL", a, "Withdrawal from account", s.clock⟩]) := by
  constructor
  · intro hlt
    have he : withdraw s uid a = .error .InsufficientFunds := by
      simp [withdraw, validAmount, ha, hb, hlt]
    exact ⟨he, by simp [applyOp, he]⟩
  · intro hge
    refine ⟨appendTxn { s with balances := setBalance s.balances uid (b - a) }
      uid "WITHDRAWAL" a "Withdrawal from account", ?_, ?_, ?_⟩
    · simp [withdraw, validAmount, ha, hb, hge]
    · simpa [appendTxn] using getBalance_setBalance_self (b - a) hb
    · simp [appendTxn]

theorem C2_withdraw_correct_witness :
    (withdraw exState 1 150 = .error .InsufficientFunds ∧
      applyOp exState (.withdraw 1 150) = exState) ∧
    (∃ s', withdraw exState 1 30 = .ok (s', 70) ∧
      getBalance s'.balances 1 = some 70 ∧
      s'.txns = exState.txns ++
        [⟨1, "WITHDRAWAL", 30, "Withdrawal from account", exState.clock⟩]) :=
  ⟨(C2_withdraw_correct exState 1 150 100 (by decide) (by decide)).1 (by decide),
   (C2_withdraw_correct exState 1 30 100 (by decide) (by decide)).2 (by decide)⟩

/-- Claim C3: a transfer of a positive amount `a` from a sender with
balance `sb ≥ a` to a distinct existing recipient with balance `rb`
debits the sender to `sb - a`, credits the recipient to `rb + a`
(conserving the sum of the two balances), appends exactly two records in
the same atomic block — `TRANSFER_OUT` on the sender and `TRANSFER_IN`
on the recipient, both of amount `a`, with mirrored descriptions — and
returns the sender's new balance. -/
theorem C3_transfer_conservation (s : BankState) (uid : UserId)
    (rname : String) (a : Int) (sender recipient : User) (sb rb : Int)
    (ha : 0 < a) (hsend : findUserById s uid = some sender)
    (hsb : getBalance s.balances uid = some sb)
    (hname : sender.username ≠ rname)
    (hrec : findUserByName s rname = some recipient)
    (hrb : getBalance s.balances recipient.id = some rb)
    (hfunds : ¬ sb < a) (hid : recipient.id ≠ uid) :
    ∃ s', transfer s uid rname a = .ok (s', sb - a) ∧
      getBalance s'.balances uid = some (sb - a) ∧
      getBalance s'.balances recipient.id = some (rb + a) ∧
      (sb - a) + (rb + a) = sb + rb ∧
      s'.txns = s.txns ++
        [⟨uid, "TRANSFER_OUT", a, "Transfer to " ++ rname, s.clock⟩,
         ⟨recipient.id, "TRANSFER_IN", a,
           "Transfer from " ++ sender.username, s.clock + 1⟩] := by
  refine ⟨appendTxn
      (appendTxn
        { s with
          balances :=
            setBalance (setBalance s.balances uid (sb - a)) recipient.id
              (rb + a) }
        uid "TRANSFER_OUT" a ("Transfer to " ++ rname))
      recipient.id "TRANSFER_IN" a ("Transfer from " ++ sender.username),
    ?_, ?_, ?_, by ring, ?_⟩
  · simp [transfer, validAmount, ha, hsend, hsb, hname, hrec, hrb, hfunds,
      appendTxn]
  · simp only [appendTxn]
    rw [getBalance_setBalance_ne (Ne.symm hid)]
    exact getBalance_setBalance_self (sb - a) hsb
  · simp only [appendTxn]
    have hmid : getBalance (setBalance s.balances uid (sb - a)) recipient.id =
        some rb := by
      rw [getBalance_setBalance_ne hid]; exact hrb
    exact getBalance_setBalance_self (rb + a) hmid
  · simp [appendTxn]

theorem C3_transfer_conservation_witness :
    ∃ s', transfer exState 1 "bob" 40 = .ok (s', 100 - 40) ∧
      getBalance s'.balances 1 = some (100 - 40) ∧
      getBalance s'.balances 2 = some (50 + 40) ∧
      (100 - 40 : Int) + (50 + 40) = 100 + 50 ∧
      s'.txns = exState.txns ++
        [⟨1, "TRANSFER_OUT", 40, "Transfer to " ++ "bob", exState.clock⟩,
         ⟨2, "TRANSFER_IN", 40, "Transfer from " ++ "alice",
           exState.clock + 1⟩] :=
  C3_transfer_conservation exState 1 "bob" 40 ⟨1, "alice"⟩ ⟨2, "bob"⟩ 100 50
    (by decide) (by decide) (by decide) (by decide) (by decide) (by decide)
    (by decide) (by decide)

/-- Claim C4: a deposit of a positive amount `a` against a balance `b`
always succeeds: it returns the new balance `b + a`, the stored balance
becomes `b + a`, and exactly one `DEPOSIT` record of amount `a` is
appended to the log. -/
theorem C4_deposit_correct (s : BankState) (uid : UserId) (a b : Int)
    (ha : 0 < a) (hb : getBalance s.balances uid = some b) :
    ∃ s', deposit s uid a = .ok (s', b + a) ∧
      getBalance s'.balances uid = some (b + a) ∧
      s'.txns = s.txns ++
        [⟨uid, "DEPOSIT", a, "Deposit to account", s.clock⟩] := by
  refine ⟨appendTxn { s with balances := setBalance s.balances uid (b + a) }
    uid "DEPOSIT" a "Deposit to account", ?_, ?_, ?_⟩
  · simp [deposit, validAmount, ha, hb]
  · simpa [appendTxn] using getBalance_setBalance_self (b + a) hb
  · simp [appendTxn]

theorem C4_deposit_correct_witness :
    ∃ s', deposit exState 1 50 = .ok (s', 150) ∧
      getBalance s'.balances 1 = some 150 ∧
      s'.txns = exState.txns ++
        [⟨1, "DEPOSIT", 50, "Deposit to account", exState.clock⟩] :=
  C4_deposit_correct exState 1 50 100 (by decide) (by decide)

/-- Claim C5: in a transfer the self-transfer check runs before the
recipient-existence check, which runs before the funds check — a sender
whose username equals the recipient name gets the self-transfer error
regardless of recipient existence or funds; an absent recipient gets
recipient-not-found regardless of the sender's balance; and every
failing transfer commits nothing. -/
theorem C5_transfer_precedence (s : BankState) (uid : UserId)
    (rname : String) (a : Int) (sender : User) (sb : Int)
    (ha : 0 < a) (hsend : findUserById s uid = some sender)
    (hsb : getBalance s.balances uid = some sb) :
    (sender.username = rname →
      transfer s uid rname a = .error .SelfTransfer) ∧
    (sender.username ≠ rname → findUserByName s rname = none →
      transfer s uid rname a = .error .RecipientNotFound) ∧
    (∀ e, transfer s uid rname a = .error e →
      applyOp s (.transfer uid rname a) = s) := by
  refine ⟨fun hself => ?_, fun hne hnone => ?_, fun e he => ?_⟩
  · simp [transfer, validAmount, ha, hsend, hsb, hself]
  · simp [transfer, validAmount, ha, hsend, hsb, hne, hnone]
  · simp [applyOp, he]

theorem C5_transfer_precedence_witness :
    transfer exState 1 "alice" 10 = .error .SelfTransfer ∧
    transfer exState 1 "dave" 10 = .error .RecipientNotFound ∧
    applyOp exState (.transfer 1 "dave" 10) = exState :=
  ⟨(C5_transfer_precedence exState 1 "alice" 10 ⟨1, "alice"⟩ 100
      (by decide) (by decide) (by decide)).1 (by decide),
   (C5_transfer_precedence exState 1 "dave" 10 ⟨1, "alice"⟩ 100
      (by decide) (by decide) (by decide)).2.1 (by decide) (by decide),
   (C5_transfer_precedence exState 1 "dave" 10 ⟨1, "alice"⟩ 100
      (by decide) (by decide) (by decide)).2.2 BankError.RecipientNotFound
     ((C5_transfer_precedence exState 1 "dave" 10 ⟨1, "alice"⟩ 100
      (by decide) (by decide) (by decide)).2.1 (by decide) (by decide))⟩

/-- Claim C7: a deposit, withdraw or transfer whose amount is zero or
negative is rejected with the validation error before any store
mutation: the operation returns the error and the store is unchanged. -/
theorem C7_positive_amount_validation (s : BankState) (uid : UserId)
    (rname : String) (a : Int) (ha : a ≤ 0) :
    deposit s uid a = .error .ValidationError ∧
    withdraw s uid a = .error .ValidationError ∧
    transfer s uid rname a = .error .ValidationError ∧
    applyOp s (.deposit uid a) = s ∧
    applyOp s (.withdraw uid a) = s ∧
    applyOp s (.transfer uid rname a) = s := by
  have hv : validAmount a = false := by
    simp [validAmount]; omega
  have h1 : deposit s uid a = .error .ValidationError := by
    simp [deposit, hv]
  have h2 : withdraw s uid a = .error .ValidationError := by
    simp [withdraw, hv]
  have h3 : transfer s uid rname a = .error .ValidationError := by
    simp [transfer, hv]
  exact ⟨h1, h2, h3, by simp [applyOp, h1], by simp [applyOp, h2],
    by simp [applyOp, h3]⟩

theorem C7_positive_amount_validation_witness :
    deposit exState 1 0 = .error .ValidationError ∧
    withdraw exState 1 0 = .error .ValidationError ∧
    transfer exState 1 "bob" 0 = .error .ValidationError ∧
    applyOp exState (.deposit 1 0) = exState ∧
    applyOp exState (.withdraw 1 0) = exState ∧
    applyOp exState (.transfer 1 "bob" 0) = exState :=
  C7_positive_amount_validation exState 1 "bob" 0 (by decide)

/-- Claim C9: when the recipient name resolves to an existing user that
has no bank account, a transfer that has passed the self-transfer,
existence and funds checks does not produce the recipient-not-found
response: the unguarded `recipient.bank_account` access raises the
unhandled related-object-does-not-exist error instead. -/
theorem C9_recipient_without_account (s : BankState) (uid : UserId)
    (rname : String) (a : Int) (sender recipient : User) (sb : Int)
    (ha : 0 < a) (hsend : findUserById s uid = some sender)
    (hsb : getBalance s.balances uid = some sb)
    (hname : sender.username ≠ rname)
    (hrec : findUserByName s rname = some recipient)
    (hfunds : ¬ sb < a)
    (hnoacct : getBalance s.balances recipient.id = none) :
    transfer s uid rname a = .error .RelatedObjectDoesNotExist ∧
    transfer s uid rname a ≠ .error .RecipientNotFound := by
  have h : transfer s uid rname a = .error .RelatedObjectDoesNotExist := by
    simp [transfer, validAmount, ha, hsend, hsb, hname, hrec, hfunds, hnoacct]
  exact ⟨h, by simp [h]⟩

theorem C9_recipient_without_account_witness :
    transfer exState 1 "carol" 10 = .error .RelatedObjectDoesNotExist ∧
    transfer exState 1 "carol" 10 ≠ .error .RecipientNotFound :=
  C9_recipient_without_account exState 1 "carol" 10 ⟨1, "alice"⟩ ⟨3, "carol"⟩
    100 (by decide) (by decide) (by decide) (by decide) (by decide)
    (by decide) (by decide)

/-- Claim C6: the transaction history of an account is a permutation of
exactly the committed records whose account reference is that account,
ordered by descending creation time (most recent first); the query is a
pure function of the store. -/
theorem C6_history_ordering (s : BankState) (uid : UserId) :
    (listTransactions s uid).Perm
      (s.txns.filter (fun t => t.account = uid)) ∧
    (listTransactions s uid).Pairwise
      (fun a b => b.created_at ≤ a.created_at) := by
  constructor
  · exact List.mergeSort_perm _ _
  · unfold listTransactions
    refine List.Pairwise.imp ?_ (List.sorted_mergeSort ?_ ?_
      (s.txns.filter (fun t => t.account = uid)))
    · intro a b hab
      simpa using hab
    · intro a b c hab hbc
      simp only [decide_eq_true_eq] at hab hbc ⊢
      omega
    · intro a b
      rcases Nat.le_total a.created_at b.created_at with h | h <;> simp [h]

/-- Claim C10: every record returned by the transaction-history query of
a caller belongs to that caller's own account. -/
theorem C10_history_scoped (s : BankState) (uid : UserId) (t : Txn)
    (ht : t ∈ listTransactions s uid) : t.account = uid := by
  unfold listTransactions at ht
  rw [List.mem_mergeSort] at ht
  simpa using (List.mem_filter.mp ht).2

theorem C10_history_scoped_witness :
    Txn.account ⟨1, "DEPOSIT", 50, "Deposit to account", 0⟩ = 1 :=
  C10_history_scoped exStateH 1 ⟨1, "DEPOSIT", 50, "Deposit to account", 0⟩
    (List.mem_mergeSort.mpr (by decide))

/-- Claim C8 (code behaviour at the failing input): `WithdrawView.post`
wraps no atomic block around the fetch, the balance check, the save and
the record creation, so two concurrent withdrawals of 60 against a
balance of 100 can both pass the check against the stale fetched
balance: the fully interleaved schedule ends with stored balance 40 and
two committed `WITHDRAWAL` records of 60 each (120 recorded against a
debit of 60 — an orphaned record), whereas the serialized behaviour an
atomic check-and-mutate would force ends with balance 40, a single
record, and the second request failing with insufficient funds. -/
theorem C8_withdraw_race :
    ((runRace (initRace 100 60 60) racySched).balance = 40 ∧
     (runRace (initRace 100 60 60) racySched).recorded = [60, 60] ∧
     (runRace (initRace 100 60 60) racySched).t1.failed = false) ∧
    ((runRace (initRace 100 60 60) serialSched).balance = 40 ∧
     (runRace (initRace 100 60 60) serialSched).recorded = [60] ∧
     (runRace (initRace 100 60 60) serialSched).t1.failed = true) := by
  decide

end BankApi
